import Mathlib

/-!
Verification of the header2post middleware (the buffer-and-flush variant
with forward-header support, package `header2post`).

The middleware wraps a downstream HTTP handler.  It buffers the handler's
status code and body in a `wrappedResponseWriter`, inspects the response
headers for a configured marker header, base64-decodes the marker value,
POSTs the decoded bytes to a configured notification URL (copying selected
request headers onto the outgoing request), logs the outcome, and finally
deletes the marker header and flushes the buffered response to the real
sink via a deferred cleanup.

The embedding below models:
  * `http.Header` as an association list from header name to value list,
    with `Get` / `Set` / `Add` / `Del` following Go's `net/http` map
    semantics (key canonicalisation is abstracted away: keys are compared
    as plain strings, used consistently on both sides);
  * `base64.StdEncoding.DecodeString` as an executable decoder over the
    standard alphabet with mandatory padding, ignoring CR and LF;
  * the real sink (`http.ResponseWriter` as seen by the wrapper) as a
    `Recorder` that records the headers, every status code written to it,
    the body bytes, and how many times the wrapper flushed into it;
  * the downstream handler as the trace of writer operations it performs
    (`HAction`), ending either normally or in a panic (`HandlerRun`) —
    the handler is opaque to the middleware and can interact with it only
    through the `http.ResponseWriter` interface;
  * the notification side effects (`http.NewRequest` success, the POST
    outcome, and the response-body read) as an oracle (`NotifyEnv`),
    since they are external collaborators.
-/

namespace Header2post

/-- `http.Header`: a map from header name to list of values, modelled as an
association list with at most one entry per key (Go's map semantics). -/
abbrev Header := List (String × List String)

/-- The values stored under key `k` (Go: `h[k]`; empty list when absent). -/
def hGetValues : Header → String → List String
  | [], _ => []
  | p :: rest, k => if p.1 = k then p.2 else hGetValues rest k

/-- Whether the key `k` is present in the header map. -/
def hHasKey : Header → String → Bool
  | [], _ => false
  | p :: rest, k => p.1 = k || hHasKey rest k

/-- Go `http.Header.Get`: the first value associated with `k`, or `""`. -/
def hGet (h : Header) (k : String) : String :=
  match hGetValues h k with
  | [] => ""
  | v :: _ => v

/-- Go `http.Header.Del`: remove the entry for the key, if any. -/
def hDel : Header → String → Header
  | [], _ => []
  | p :: rest, k => if p.1 = k then hDel rest k else p :: hDel rest k

/-- Go `http.Header.Set`: replace any existing values of `k` with `[v]`. -/
def hSet (h : Header) (k v : String) : Header :=
  hDel h k ++ [(k, [v])]

/-- Go `http.Header.Add`: append `v` to the values of `k`. -/
def hAdd (h : Header) (k v : String) : Header :=
  if hHasKey h k then
    h.map (fun p => if p.1 = k then (p.1, p.2 ++ [v]) else p)
  else
    h ++ [(k, [v])]

/-- Index of a character in the standard base64 alphabet
(`A-Z`, `a-z`, `0-9`, `+`, `/`), as in `encoding/base64.StdEncoding`. -/
def b64Index (c : Char) : Option Nat :=
  if 'A' ≤ c ∧ c ≤ 'Z' then some (c.toNat - 65)
  else if 'a' ≤ c ∧ c ≤ 'z' then some (c.toNat - 71)
  else if '0' ≤ c ∧ c ≤ '9' then some (c.toNat + 4)
  else if c = '+' then some 62
  else if c = '/' then some 63
  else none

/-- Decode a base64 character stream four characters at a time, with `=`
padding allowed only at the very end, as `base64.StdEncoding` does. -/
def decodeQuanta : List Char → Option (List Nat)
  | [] => some []
  | c1 :: c2 :: c3 :: c4 :: rest =>
    match b64Index c1, b64Index c2 with
    | some i1, some i2 =>
      if c3 = '=' then
        if c4 = '=' ∧ rest = [] then some [i1 * 4 + i2 / 16] else none
      else
        match b64Index c3 with
        | some i3 =>
          if c4 = '=' then
            if rest = [] then some [i1 * 4 + i2 / 16, (i2 % 16) * 16 + i3 / 4]
            else none
          else
            match b64Index c4 with
            | some i4 =>
              match decodeQuanta rest with
              | some t =>
                some ((i1 * 4 + i2 / 16) :: ((i2 % 16) * 16 + i3 / 4) ::
                      ((i3 % 4) * 64 + i4) :: t)
              | none => none
            | none => none
        | none => none
    | _, _ => none
  | _ => none

/-- Go `base64.StdEncoding.DecodeString`: CR and LF are ignored, the rest
must be full four-character quanta over the standard alphabet with proper
trailing padding.  `none` models a `CorruptInputError`. -/
def base64DecodeString (s : String) : Option (List Nat) :=
  decodeQuanta (s.toList.filter (fun c => c != '\r' && c != '\n'))

/-- Go `strings.TrimSpace`: strip leading and trailing whitespace. -/
def trimSpace (s : String) : String :=
  String.mk (((s.toList.dropWhile Char.isWhitespace).reverse.dropWhile
    Char.isWhitespace).reverse)

/-- The plugin configuration (`Config` in the source). -/
structure Config where
  NotifyHeader : String
  NotifyUrl : String
  ForwardHeaders : List String
deriving DecidableEq

/-- `CreateConfig` returns the zero-valued default configuration. -/
def CreateConfig : Config :=
  { NotifyHeader := "", NotifyUrl := "", ForwardHeaders := [] }

/-- The middleware value built by `New` (the `notify` struct).  The `next`
handler is opaque and is modelled separately as the action trace it
performs on the writer, so it is not a field here. -/
structure notify where
  forwardHeaders : List String
  notifyHeader : String
  notifyUrl : String
  name : String
deriving DecidableEq

/-- `New`: validates the configuration and builds the middleware.
The untyped `ctx` argument is unused by the source and omitted. -/
def New (config : Config) (name : String) : Except String notify :=
  if config.NotifyHeader.length = 0 then
    Except.error ("notifyheader cannot be empty")
  else if config.NotifyUrl.length = 0 then
    Except.error ("notifyurl cannot be empty")
  else
    Except.ok { forwardHeaders := config.ForwardHeaders,
                notifyHeader := config.NotifyHeader,
                notifyUrl := config.NotifyUrl,
                name := name }

/-- The incoming `*http.Request`, reduced to the part the middleware
reads: its header map. -/
structure Request where
  header : Header
deriving DecidableEq

/-- The real sink underneath the wrapper.  `codes` records every status
code written to it (`WriteHeader` calls it receives), `body` the bytes
copied into it, and `flushes` how many times the wrapper's `Flush` ran. -/
structure Recorder where
  header : Header
  codes : List Nat
  body : List Nat
  flushes : Nat
deriving DecidableEq

/-- `wrappedResponseWriter`: holds the real sink `w`, an accumulating body
buffer `buf`, and the recorded status `code`. -/
structure wrappedResponseWriter where
  w : Recorder
  buf : List Nat
  code : Nat
deriving DecidableEq

/-- `newResponseWriter`: fresh buffer, status defaulted to 200. -/
def newResponseWriter (w : Recorder) : wrappedResponseWriter :=
  { w := w, buf := [], code := 200 }

/-- `wrappedResponseWriter.Flush`: write the recorded status to the real
sink, then copy the buffered body into it. -/
def wrappedResponseWriter.Flush (s : wrappedResponseWriter) : Recorder :=
  { header := s.w.header,
    codes := s.w.codes ++ [s.code],
    body := s.w.body ++ s.buf,
    flushes := s.w.flushes + 1 }

/-- One operation a downstream handler can perform through the
`http.ResponseWriter` interface of the wrapper. -/
inductive HAction where
  | setHeader (k v : String)
  | addHeader (k v : String)
  | delHeader (k : String)
  | write (b : List Nat)
  | writeHeader (code : Nat)
deriving DecidableEq

/-- Whether an action is a `WriteHeader` call. -/
def HAction.isWriteHeader : HAction → Bool
  | HAction.writeHeader _ => true
  | _ => false

/-- Apply one handler action to the wrapper.  `Header()` returns the real
sink's header map, so header mutations act on `s.w.header`; `Write`
appends to the buffer; `WriteHeader` records the status code. -/
def applyAction (s : wrappedResponseWriter) : HAction → wrappedResponseWriter
  | HAction.setHeader k v => { s with w := { s.w with header := hSet s.w.header k v } }
  | HAction.addHeader k v => { s with w := { s.w with header := hAdd s.w.header k v } }
  | HAction.delHeader k => { s with w := { s.w with header := hDel s.w.header k } }
  | HAction.write b => { s with buf := s.buf ++ b }
  | HAction.writeHeader c => { s with code := c }

/-- Run the downstream handler's whole action trace on the wrapper. -/
def runHandler : List HAction → wrappedResponseWriter → wrappedResponseWriter
  | [], s => s
  | x :: rest, s => runHandler rest (applyAction s x)

/-- How the downstream handler's invocation ends: normally, or in a panic
after a prefix of its writer actions. -/
inductive HandlerRun where
  | normal (actions : List HAction)
  | panics (actions : List HAction)
deriving DecidableEq

/-- Outcome of reading the notification response body (`readBody`). -/
inductive ReadResult where
  | err
  | ok (body : String)
deriving DecidableEq

/-- Outcome of the notification POST (`a.post`): a transport error, or a
response with a status code and a body whose read may itself fail. -/
inductive PostOutcome where
  | transportErr
  | resp (status : Nat) (r : ReadResult)
deriving DecidableEq

/-- The external world of the notification side-path: whether
`http.NewRequest` succeeds for the configured URL, and what the POST
returns.  The middleware has no control over either. -/
structure NotifyEnv where
  buildOk : Bool
  post : PostOutcome
deriving DecidableEq

/-- The outgoing notification request built by `ServeHTTP`. -/
structure NotifyRequest where
  method : String
  url : String
  header : Header
  body : List Nat
deriving DecidableEq

/-- A log line the middleware can emit. -/
inductive LogEvent where
  | decodeError
  | createRequestError
  | postError
  | notifySuccess
  | readBodyError
  | notifyFailed (body : String)
deriving DecidableEq

/-- Everything observable about one `ServeHTTP` invocation: the final
state of the real sink, the log lines, the request handed to `a.post`
(`none` when no POST was attempted), and whether the handler's panic is
propagating. -/
structure ServeResult where
  sink : Recorder
  log : List LogEvent
  notifyReq : Option NotifyRequest
  panicked : Bool
deriving DecidableEq

/-- The loop that copies configured forward headers onto the outgoing
notification request: for each name, the value is read from the incoming
request, trimmed, and `Set` when non-empty (empty values are skipped). -/
def forwardFold (req : Request) : List String → Header → Header
  | [], acc => acc
  | k :: rest, acc =>
    forwardFold req rest
      (if trimSpace (hGet req.header k) = "" then acc
       else hSet acc k (trimSpace (hGet req.header k)))

/-- Build the notification request: `POST` to the configured URL with the
decoded bytes as body, `Content-Type: application/json` set first, then
the forward-header loop (which may overwrite the default).  The source
also builds a `forwardHeaders` map at this point that nothing reads; it
has no observable effect and is omitted. -/
def buildNotifyRequest (a : notify) (req : Request) (data : List Nat) : NotifyRequest :=
  { method := "POST",
    url := a.notifyUrl,
    body := data,
    header := forwardFold req a.forwardHeaders
      (hSet ([] : Header) "Content-Type" "application/json") }

/-- The deferred cleanup: delete the marker header from the (shared)
header map, then flush the buffered status and body to the real sink. -/
def finishResponse (a : notify) (s : wrappedResponseWriter) : Recorder :=
  wrappedResponseWriter.Flush
    { s with w := { s.w with header := hDel s.w.header a.notifyHeader } }

/-- The notification side-path of `ServeHTTP`, straight-line from the
source: early return on empty marker value; base64-decode (log and stop
on error); build the POST request (log and stop on `http.NewRequest`
error); send it (log and stop on transport error); then log success on
status 202 or read the body and log the failure (a body-read error is
logged and stops only this step).  Returns the log lines and the request
passed to `a.post`, when any. -/
def notifyStep (a : notify) (req : Request) (value : String) (env : NotifyEnv) :
    List LogEvent × Option NotifyRequest :=
  if value = "" then ([], none)
  else
    match base64DecodeString value with
    | none => ([LogEvent.decodeError], none)
    | some data =>
      if env.buildOk then
        let myreq := buildNotifyRequest a req data
        match env.post with
        | PostOutcome.transportErr => ([LogEvent.postError], some myreq)
        | PostOutcome.resp status r =>
          if status = 202 then ([LogEvent.notifySuccess], some myreq)
          else
            match r with
            | ReadResult.ok b => ([LogEvent.notifyFailed b], some myreq)
            | ReadResult.err => ([LogEvent.readBodyError], some myreq)
      else ([LogEvent.createRequestError], none)

/-- `notify.ServeHTTP`: wrap the sink, run the downstream handler, read
the marker header and run the notification side-path (which never touches
the wrapper), and in every case — including a handler panic, thanks to the
`defer` installed before the handler runs — delete the marker header and
flush the buffer exactly once. -/
def notify.ServeHTTP (a : notify) (req : Request) (rw : Recorder)
    (run : HandlerRun) (env : NotifyEnv) : ServeResult :=
  match run with
  | HandlerRun.panics actions =>
    { sink := finishResponse a (runHandler actions (newResponseWriter rw)),
      log := [], notifyReq := none, panicked := true }
  | HandlerRun.normal actions =>
    let s := runHandler actions (newResponseWriter rw)
    let r := notifyStep a req (hGet s.w.header a.notifyHeader) env
    { sink := finishResponse a s, log := r.1, notifyReq := r.2, panicked := false }

/-! ### Helper lemmas about the header map -/

theorem hGetValues_hDel_self (h : Header) (k : String) :
    hGetValues (hDel h k) k = [] := by
  induction h with
  | nil => rfl
  | cons p rest ih =>
    by_cases hp : p.1 = k
    · simpa [hDel, hp] using ih
    · simpa [hDel, hp, hGetValues] using ih

theorem hGetValues_hDel_other (h : Header) (k k' : String) (hne : k' ≠ k) :
    hGetValues (hDel h k) k' = hGetValues h k' := by
  induction h with
  | nil => rfl
  | cons p rest ih =>
    by_cases hp : p.1 = k
    · have hp' : ¬ p.1 = k' := by rw [hp]; exact fun hc => hne hc.symm
      simp only [hDel, hGetValues, if_pos hp, if_neg hp']
      exact ih
    · simp only [hDel, hGetValues, if_neg hp]
      rw [ih]

theorem hHasKey_hDel_self (h : Header) (k : String) :
    hHasKey (hDel h k) k = false := by
  induction h with
  | nil => rfl
  | cons p rest ih =>
    by_cases hp : p.1 = k
    · simpa [hDel, hp] using ih
    · simpa [hDel, hp, hHasKey] using ih

theorem hHasKey_hDel_other (h : Header) (k k' : String) (hne : k' ≠ k) :
    hHasKey (hDel h k) k' = hHasKey h k' := by
  induction h with
  | nil => rfl
  | cons p rest ih =>
    by_cases hp : p.1 = k
    · have hp' : ¬ p.1 = k' := by rw [hp]; exact fun hc => hne hc.symm
      simp only [hDel, hHasKey, if_pos hp, ih]
      simp [hp']
    · simp only [hDel, hHasKey, if_neg hp]
      rw [ih]

theorem hGetValues_append (l1 l2 : Header) (k : String) :
    hGetValues (l1 ++ l2) k =
      (if hHasKey l1 k then hGetValues l1 k else hGetValues l2 k) := by
  induction l1 with
  | nil => simp [hHasKey, hGetValues]
  | cons p rest ih =>
    by_cases hp : p.1 = k
    · simp [hGetValues, hHasKey, hp]
    · simpa [hGetValues, hHasKey, hp] using ih

theorem hGetValues_hSet_self (h : Header) (k v : String) :
    hGetValues (hSet h k v) k = [v] := by
  rw [hSet, hGetValues_append, hHasKey_hDel_self]
  simp [hGetValues]

theorem hGet_hSet_self (h : Header) (k v : String) :
    hGet (hSet h k v) k = v := by
  rw [hGet, hGetValues_hSet_self]

theorem hGetValues_of_not_has (h : Header) (k : String)
    (hk : hHasKey h k = false) : hGetValues h k = [] := by
  induction h with
  | nil => rfl
  | cons p rest ih =>
    simp [hHasKey] at hk
    simp [hGetValues, hk.1, ih hk.2]

theorem hGetValues_hSet_other (h : Header) (k v k' : String) (hne : k' ≠ k) :
    hGetValues (hSet h k v) k' = hGetValues h k' := by
  rw [hSet, hGetValues_append]
  by_cases hk : hHasKey (hDel h k) k'
  · rw [if_pos hk, hGetValues_hDel_other h k k' hne]
  · rw [if_neg hk]
    have hk0 : hHasKey (hDel h k) k' = false := by simpa using hk
    have hk' : hHasKey h k' = false := by
      rw [← hHasKey_hDel_other h k k' hne]
      exact hk0
    have h0 : hGetValues h k' = [] := hGetValues_of_not_has h k' hk'
    have hkk : k ≠ k' := fun hc => hne hc.symm
    simp [hGetValues, hkk, h0]

theorem hGet_hSet_other (h : Header) (k v k' : String) (hne : k' ≠ k) :
    hGet (hSet h k v) k' = hGet h k' := by
  rw [hGet, hGet, hGetValues_hSet_other h k v k' hne]

theorem hDel_of_not_has (h : Header) (k : String)
    (hk : hHasKey h k = false) : hDel h k = h := by
  induction h with
  | nil => rfl
  | cons p rest ih =>
    simp [hHasKey] at hk
    simp [hDel, hk.1, ih hk.2]

theorem hGet_of_not_has (h : Header) (k : String)
    (hk : hHasKey h k = false) : hGet h k = "" := by
  rw [hGet, hGetValues_of_not_has h k hk]

/-- `s.length = 0` exactly characterises the empty string (the source
tests emptiness with `len(s) == 0`). -/
theorem string_length_eq_zero_iff (s : String) : s.length = 0 ↔ s = "" := by
  cases s with
  | mk data =>
    constructor
    · intro h
      have hd : data = [] := List.length_eq_zero.mp h
      rw [hd]
    · intro h
      have : data = [] := congrArg String.data h
      simp [String.length, this]

/-! ### Helper lemmas about the wrapper and the handler trace

A downstream handler interacts with the wrapper only through `Header()`,
`Write` and `WriteHeader`, so it can never touch the real sink's recorded
status codes, body, or flush count. -/

theorem runHandler_w_codes (as : List HAction) (s : wrappedResponseWriter) :
    (runHandler as s).w.codes = s.w.codes := by
  induction as generalizing s with
  | nil => rfl
  | cons x rest ih => cases x <;> simp [runHandler, applyAction, ih]

theorem runHandler_w_body (as : List HAction) (s : wrappedResponseWriter) :
    (runHandler as s).w.body = s.w.body := by
  induction as generalizing s with
  | nil => rfl
  | cons x rest ih => cases x <;> simp [runHandler, applyAction, ih]

theorem runHandler_w_flushes (as : List HAction) (s : wrappedResponseWriter) :
    (runHandler as s).w.flushes = s.w.flushes := by
  induction as generalizing s with
  | nil => rfl
  | cons x rest ih => cases x <;> simp [runHandler, applyAction, ih]

theorem runHandler_code_of_no_writeHeader (as : List HAction)
    (s : wrappedResponseWriter) (h : ∀ x ∈ as, x.isWriteHeader = false) :
    (runHandler as s).code = s.code := by
  induction as generalizing s with
  | nil => rfl
  | cons x rest ih =>
    have hx : x.isWriteHeader = false := h x (List.mem_cons_self x rest)
    have hrest : ∀ y ∈ rest, y.isWriteHeader = false :=
      fun y hy => h y (List.mem_cons_of_mem x hy)
    cases x with
    | writeHeader c => simp [HAction.isWriteHeader] at hx
    | setHeader k v => simpa [runHandler, applyAction] using ih _ hrest
    | addHeader k v => simpa [runHandler, applyAction] using ih _ hrest
    | delHeader k => simpa [runHandler, applyAction] using ih _ hrest
    | write b => simpa [runHandler, applyAction] using ih _ hrest

/-! ### Projection lemmas for the deferred cleanup and `ServeHTTP` -/

theorem finishResponse_header (a : notify) (s : wrappedResponseWriter) :
    (finishResponse a s).header = hDel s.w.header a.notifyHeader := rfl

theorem finishResponse_codes (a : notify) (s : wrappedResponseWriter) :
    (finishResponse a s).codes = s.w.codes ++ [s.code] := rfl

theorem finishResponse_body (a : notify) (s : wrappedResponseWriter) :
    (finishResponse a s).body = s.w.body ++ s.buf := rfl

theorem finishResponse_flushes (a : notify) (s : wrappedResponseWriter) :
    (finishResponse a s).flushes = s.w.flushes + 1 := rfl

theorem ServeHTTP_sink_normal (a : notify) (req : Request) (rw : Recorder)
    (as : List HAction) (env : NotifyEnv) :
    (notify.ServeHTTP a req rw (HandlerRun.normal as) env).sink =
      finishResponse a (runHandler as (newResponseWriter rw)) := rfl

theorem ServeHTTP_log_normal (a : notify) (req : Request) (rw : Recorder)
    (as : List HAction) (env : NotifyEnv) :
    (notify.ServeHTTP a req rw (HandlerRun.normal as) env).log =
      (notifyStep a req
        (hGet (runHandler as (newResponseWriter rw)).w.header a.notifyHeader)
        env).1 := rfl

theorem ServeHTTP_notifyReq_normal (a : notify) (req : Request) (rw : Recorder)
    (as : List HAction) (env : NotifyEnv) :
    (notify.ServeHTTP a req rw (HandlerRun.normal as) env).notifyReq =
      (notifyStep a req
        (hGet (runHandler as (newResponseWriter rw)).w.header a.notifyHeader)
        env).2 := rfl

/-- The three client-visible components of the sink after a normal run:
the handler's headers with the marker deleted, the buffered status
appended to the sink's status writes, and the buffered body appended to
the sink's body. -/
theorem ServeHTTP_sink_components (a : notify) (req : Request) (rw : Recorder)
    (as : List HAction) (env : NotifyEnv) :
    (notify.ServeHTTP a req rw (HandlerRun.normal as) env).sink.header =
      hDel (runHandler as (newResponseWriter rw)).w.header a.notifyHeader ∧
    (notify.ServeHTTP a req rw (HandlerRun.normal as) env).sink.codes =
      rw.codes ++ [(runHandler as (newResponseWriter rw)).code] ∧
    (notify.ServeHTTP a req rw (HandlerRun.normal as) env).sink.body =
      rw.body ++ (runHandler as (newResponseWriter rw)).buf := by
  rw [ServeHTTP_sink_normal]
  refine ⟨finishResponse_header _ _, ?_, ?_⟩
  · rw [finishResponse_codes, runHandler_w_codes]
    rfl
  · rw [finishResponse_body, runHandler_w_body]
    rfl

/-! ### Helper lemmas about the forward-header loop -/

theorem forwardFold_get_of_not_mem (req : Request) (l : List String)
    (acc : Header) (k : String) (hnm : k ∉ l) :
    hGet (forwardFold req l acc) k = hGet acc k := by
  induction l generalizing acc with
  | nil => rfl
  | cons x rest ih =>
    have hx : k ≠ x := fun hc => hnm (hc ▸ List.mem_cons_self x rest)
    have hrest : k ∉ rest := fun hc => hnm (List.mem_cons_of_mem x hc)
    rw [forwardFold, ih _ hrest]
    by_cases hv : trimSpace (hGet req.header x) = ""
    · rw [if_pos hv]
    · rw [if_neg hv, hGet_hSet_other _ _ _ _ hx]

theorem forwardFold_get_of_mem (req : Request) (l : List String)
    (acc : Header) (k : String) (hmem : k ∈ l)
    (hv : trimSpace (hGet req.header k) ≠ "") :
    hGet (forwardFold req l acc) k = trimSpace (hGet req.header k) := by
  induction l generalizing acc with
  | nil => exact absurd hmem (List.not_mem_nil k)
  | cons x rest ih =>
    by_cases hrest : k ∈ rest
    · rw [forwardFold]
      exact ih _ hrest
    · have hx : k = x := by
        rcases List.mem_cons.mp hmem with h | h
        · exact h
        · exact absurd h hrest
      subst hx
      rw [forwardFold, if_neg hv, forwardFold_get_of_not_mem _ _ _ _ hrest,
        hGet_hSet_self]

theorem forwardFold_values_of_trim_empty (req : Request) (l : List String)
    (acc : Header) (k : String) (hv : trimSpace (hGet req.header k) = "") :
    hGetValues (forwardFold req l acc) k = hGetValues acc k := by
  induction l generalizing acc with
  | nil => rfl
  | cons x rest ih =>
    rw [forwardFold]
    by_cases hvx : trimSpace (hGet req.header x) = ""
    · rw [if_pos hvx, ih]
    · have hx : k ≠ x := by
        intro hc
        subst hc
        exact hvx hv
      rw [if_neg hvx, ih, hGetValues_hSet_other _ _ _ _ hx]

/-- A sink lemma for the panic path, mirroring `ServeHTTP_sink_normal`. -/
theorem ServeHTTP_sink_panics (a : notify) (req : Request) (rw : Recorder)
    (as : List HAction) (env : NotifyEnv) :
    (notify.ServeHTTP a req rw (HandlerRun.panics as) env).sink =
      finishResponse a (runHandler as (newResponseWriter rw)) := rfl

/-! ### Concrete fixtures used by witnesses and counterexamples -/

/-- The middleware as configured in the repository's tests. -/
def exA : notify :=
  { forwardHeaders := [], notifyHeader := "X-Notify",
    notifyUrl := "https://example.com/notification", name := "header2post" }

/-- An incoming request with no headers. -/
def exReq : Request := { header := [] }

/-- A fresh real sink. -/
def exRW : Recorder := { header := [], codes := [], body := [], flushes := 0 }

/-- A notification environment where the POST fails in transport. -/
def exEnv : NotifyEnv := { buildOk := true, post := PostOutcome.transportErr }

/-- A handler trace that sets a valid base64 marker value
(`base64("hello world")`), a 400 status, and a body. -/
def exActs : List HAction :=
  [HAction.setHeader "X-Notify" "aGVsbG8gd29ybGQ=",
   HAction.writeHeader 400, HAction.write [104, 105]]

/-! ### The claims -/

/-- Claim C1: for every request whose marker header carries a valid base64
value, the status code, headers, and body delivered to the client are
identical across any two runs that differ only in the outcome of the
notification call (transport error, 202 status, non-202 status, or
response-body read error); the notification outcome never alters the
client-visible response. -/
theorem ServeHTTP_client_response_independent_of_notify_outcome
    (a : notify) (req : Request) (rw : Recorder) (as : List HAction)
    (env1 env2 : NotifyEnv) (data : List Nat)
    (hdec : base64DecodeString
      (hGet (runHandler as (newResponseWriter rw)).w.header a.notifyHeader) =
        some data) :
    (notify.ServeHTTP a req rw (HandlerRun.normal as) env1).sink =
      (notify.ServeHTTP a req rw (HandlerRun.normal as) env2).sink := by
  rw [ServeHTTP_sink_normal, ServeHTTP_sink_normal]

/-- Witness for C1 at a concrete input: the marker carries
`base64("hello world")`, and the sink state is equal between a run whose
POST fails in transport and a run whose POST returns 202. -/
theorem ServeHTTP_client_response_independent_of_notify_outcome_witness :
    base64DecodeString
      (hGet (runHandler exActs (newResponseWriter exRW)).w.header
        exA.notifyHeader) =
      some [104, 101, 108, 108, 111, 32, 119, 111, 114, 108, 100] ∧
    (notify.ServeHTTP exA exReq exRW (HandlerRun.normal exActs) exEnv).sink =
      (notify.ServeHTTP exA exReq exRW (HandlerRun.normal exActs)
        { buildOk := true, post := PostOutcome.resp 202 (ReadResult.ok "ok") }).sink :=
  ⟨by decide,
   ServeHTTP_client_response_independent_of_notify_outcome exA exReq exRW
     exActs exEnv
     { buildOk := true, post := PostOutcome.resp 202 (ReadResult.ok "ok") }
     [104, 101, 108, 108, 111, 32, 119, 111, 114, 108, 100] (by decide)⟩

/-- Claim C2: for every request handled by `ServeHTTP` — whether the
marker header was absent, empty, invalid base64, or triggered a
notification attempt, and even when the downstream handler panics — the
configured marker header is deleted from the response headers before the
buffer is flushed, so it is never present in the headers delivered to the
client. -/
theorem ServeHTTP_marker_header_never_delivered
    (a : notify) (req : Request) (rw : Recorder) (run : HandlerRun)
    (env : NotifyEnv) :
    hGetValues (notify.ServeHTTP a req rw run env).sink.header
      a.notifyHeader = [] := by
  cases run with
  | normal as =>
    rw [ServeHTTP_sink_normal, finishResponse_header, hGetValues_hDel_self]
  | panics as =>
    rw [ServeHTTP_sink_panics, finishResponse_header, hGetValues_hDel_self]

/-- Counterexample to claim C3 as stated: a downstream handler that sets
the marker header to the empty string.  No notification occurs, but the
headers delivered to the client are not byte-identical to what the
handler wrote: the deferred cleanup removes the empty-valued marker
entry. -/
theorem ServeHTTP_empty_marker_headers_differ :
    hGet (runHandler [HAction.setHeader "X-Notify" ""]
        (newResponseWriter exRW)).w.header exA.notifyHeader = "" ∧
    (notify.ServeHTTP exA exReq exRW
        (HandlerRun.normal [HAction.setHeader "X-Notify" ""]) exEnv).notifyReq
      = none ∧
    (notify.ServeHTTP exA exReq exRW
        (HandlerRun.normal [HAction.setHeader "X-Notify" ""]) exEnv).sink.header
      ≠ (runHandler [HAction.setHeader "X-Notify" ""]
          (newResponseWriter exRW)).w.header := by decide

/-- Claim C3 (amended): for every request where the downstream handler
never sets the marker header or sets it to the empty string, the status
code and body the client receives are byte-identical to what the handler
wrote into the buffer, no notification POST is made and nothing is
logged, and the delivered headers are the handler's headers with the
marker key removed — which is byte-identical to the handler's headers in
the never-set case, but drops the empty-valued marker entry when the
handler set it to the empty string. -/
theorem ServeHTTP_no_marker_response_delivered_verbatim
    (a : notify) (req : Request) (rw : Recorder) (as : List HAction)
    (env : NotifyEnv)
    (hval : hGet (runHandler as (newResponseWriter rw)).w.header
      a.notifyHeader = "") :
    (notify.ServeHTTP a req rw (HandlerRun.normal as) env).sink.header =
      hDel (runHandler as (newResponseWriter rw)).w.header a.notifyHeader ∧
    (notify.ServeHTTP a req rw (HandlerRun.normal as) env).sink.codes =
      rw.codes ++ [(runHandler as (newResponseWriter rw)).code] ∧
    (notify.ServeHTTP a req rw (HandlerRun.normal as) env).sink.body =
      rw.body ++ (runHandler as (newResponseWriter rw)).buf ∧
    (notify.ServeHTTP a req rw (HandlerRun.normal as) env).notifyReq = none ∧
    (notify.ServeHTTP a req rw (HandlerRun.normal as) env).log = [] ∧
    (hHasKey (runHandler as (newResponseWriter rw)).w.header a.notifyHeader
        = false →
      (notify.ServeHTTP a req rw (HandlerRun.normal as) env).sink.header =
        (runHandler as (newResponseWriter rw)).w.header) := by
  obtain ⟨h1, h2, h3⟩ := ServeHTTP_sink_components a req rw as env
  refine ⟨h1, h2, h3, ?_, ?_, ?_⟩
  · rw [ServeHTTP_notifyReq_normal]
    simp [notifyStep, hval]
  · rw [ServeHTTP_log_normal]
    simp [notifyStep, hval]
  · intro hnk
    rw [h1, hDel_of_not_has _ _ hnk]

/-- A handler trace that never touches the marker header. -/
def c3Acts : List HAction :=
  [HAction.setHeader "Content-Type" "text/plain",
   HAction.writeHeader 201, HAction.write [104, 105]]

/-- Witness for the amended C3 at a concrete input: a handler that never
sets the marker gets its response delivered verbatim and triggers no
notification. -/
theorem ServeHTTP_no_marker_response_delivered_verbatim_witness :
    hGet (runHandler c3Acts (newResponseWriter exRW)).w.header
      exA.notifyHeader = "" ∧
    (notify.ServeHTTP exA exReq exRW (HandlerRun.normal c3Acts) exEnv).notifyReq
      = none ∧
    (notify.ServeHTTP exA exReq exRW (HandlerRun.normal c3Acts) exEnv).sink.header
      = (runHandler c3Acts (newResponseWriter exRW)).w.header :=
  ⟨by decide,
   (ServeHTTP_no_marker_response_delivered_verbatim exA exReq exRW c3Acts exEnv
     (by decide)).2.2.2.1,
   (ServeHTTP_no_marker_response_delivered_verbatim exA exReq exRW c3Acts exEnv
     (by decide)).2.2.2.2.2 (by decide)⟩

/-- Claim C4: `New` returns a configuration error if the marker-header
name is the empty string, returns a configuration error if the
notification URL is the empty string, and succeeds — returning the fully
populated middleware value, with no partially constructed handler
observable on the error paths — whenever both are non-empty. -/
theorem New_configuration_validation (config : Config) (name : String) :
    (config.NotifyHeader = "" →
      New config name = Except.error ("notifyheader cannot be empty")) ∧
    (config.NotifyHeader ≠ "" → config.NotifyUrl = "" →
      New config name = Except.error ("notifyurl cannot be empty")) ∧
    (config.NotifyHeader ≠ "" → config.NotifyUrl ≠ "" →
      New config name = Except.ok
        { forwardHeaders := config.ForwardHeaders,
          notifyHeader := config.NotifyHeader,
          notifyUrl := config.NotifyUrl,
          name := name }) := by
  refine ⟨?_, ?_, ?_⟩
  · intro h
    simp only [New]
    rw [if_pos ((string_length_eq_zero_iff _).mpr h)]
  · intro h1 h2
    simp only [New]
    rw [if_neg (fun hc => h1 ((string_length_eq_zero_iff _).mp hc)),
      if_pos ((string_length_eq_zero_iff _).mpr h2)]
  · intro h1 h2
    simp only [New]
    rw [if_neg (fun hc => h1 ((string_length_eq_zero_iff _).mp hc)),
      if_neg (fun hc => h2 ((string_length_eq_zero_iff _).mp hc))]

/-- Witness for C4 at concrete configurations: both error paths and the
success path. -/
theorem New_configuration_validation_witness :
    New { NotifyHeader := "", NotifyUrl := "http://localhost:8000",
          ForwardHeaders := [] } "n" =
      Except.error ("notifyheader cannot be empty") ∧
    New { NotifyHeader := "X-Notify", NotifyUrl := "",
          ForwardHeaders := [] } "n" =
      Except.error ("notifyurl cannot be empty") ∧
    New { NotifyHeader := "X-Notify", NotifyUrl := "http://localhost:8000",
          ForwardHeaders := [] } "n" =
      Except.ok { forwardHeaders := [], notifyHeader := "X-Notify",
                  notifyUrl := "http://localhost:8000", name := "n" } :=
  ⟨(New_configuration_validation _ "n").1 rfl,
   (New_configuration_validation _ "n").2.1 (by decide) rfl,
   (New_configuration_validation _ "n").2.2 (by decide) (by decide)⟩

/-- A middleware configured to forward `Content-Type`. -/
def ctA : notify :=
  { forwardHeaders := ["Content-Type"], notifyHeader := "X-Notify",
    notifyUrl := "https://example.com/notification", name := "header2post" }

/-- Counterexample to claim C5 as stated: with `Content-Type` configured
as a forward header and absent from the incoming request, the claim says
the header is omitted entirely from the notification request, but the
request still carries the default `Content-Type: application/json` that
is set unconditionally before the forward loop. -/
theorem buildNotifyRequest_content_type_not_omitted :
    trimSpace (hGet exReq.header "Content-Type") = "" ∧
    "Content-Type" ∈ ctA.forwardHeaders ∧
    hGet (buildNotifyRequest ctA exReq []).header "Content-Type" =
      "application/json" := by decide

/-- Claim C5 (amended): for every configured forward-header name, the
value is read from the original incoming request's headers (never from
the response headers); if the value is non-empty after trimming
surrounding whitespace, the trimmed value is set verbatim on the outgoing
notification request (overwriting any default such as `Content-Type`),
and if it is absent or empty after trimming the forward loop leaves the
header out of the notification request — so it is absent, except that a
configured name equal to `Content-Type` still carries the unconditional
`application/json` default. -/
theorem buildNotifyRequest_forward_header_semantics
    (a : notify) (req : Request) (data : List Nat) (h : String)
    (hmem : h ∈ a.forwardHeaders) :
    (trimSpace (hGet req.header h) ≠ "" →
      hGet (buildNotifyRequest a req data).header h =
        trimSpace (hGet req.header h)) ∧
    (trimSpace (hGet req.header h) = "" → h ≠ "Content-Type" →
      hGetValues (buildNotifyRequest a req data).header h = []) ∧
    (trimSpace (hGet req.header h) = "" → h = "Content-Type" →
      hGet (buildNotifyRequest a req data).header h = "application/json") := by
  refine ⟨?_, ?_, ?_⟩
  · intro hv
    show hGet (forwardFold req a.forwardHeaders
      (hSet ([] : Header) "Content-Type" "application/json")) h = _
    exact forwardFold_get_of_mem req _ _ h hmem hv
  · intro hv hct
    show hGetValues (forwardFold req a.forwardHeaders
      (hSet ([] : Header) "Content-Type" "application/json")) h = []
    rw [forwardFold_values_of_trim_empty req _ _ h hv,
      hGetValues_hSet_other _ _ _ _ hct]
    rfl
  · intro hv hct
    subst hct
    show hGet (forwardFold req a.forwardHeaders
      (hSet ([] : Header) "Content-Type" "application/json")) "Content-Type"
      = _
    rw [hGet, forwardFold_values_of_trim_empty req _ _ _ hv,
      hGetValues_hSet_self]

/-- The middleware of the forward-header test, with the three configured
forward-header names. -/
def fwA : notify :=
  { forwardHeaders := ["X-Test-Forward-A", "X-Test-Forward-B",
      "X-Test-Forward-C"],
    notifyHeader := "X-Notify",
    notifyUrl := "https://example.com/notification", name := "header2post" }

/-- The incoming request of the forward-header test: values for A and B
only. -/
def fwReq : Request :=
  { header := [("X-Test-Forward-A", ["a"]), ("X-Test-Forward-B", ["b"])] }

/-- Witness for the amended C5 at the test's concrete input: header A is
carried with its exact value and header C is absent from the notification
request. -/
theorem buildNotifyRequest_forward_header_semantics_witness :
    ("X-Test-Forward-A" ∈ fwA.forwardHeaders ∧
      trimSpace (hGet fwReq.header "X-Test-Forward-A") ≠ "" ∧
      hGet (buildNotifyRequest fwA fwReq [1]).header "X-Test-Forward-A"
        = "a") ∧
    ("X-Test-Forward-C" ∈ fwA.forwardHeaders ∧
      trimSpace (hGet fwReq.header "X-Test-Forward-C") = "" ∧
      hGetValues (buildNotifyRequest fwA fwReq [1]).header "X-Test-Forward-C"
        = []) :=
  ⟨⟨by decide, by decide,
    by
      have := (buildNotifyRequest_forward_header_semantics fwA fwReq [1]
        "X-Test-Forward-A" (by decide)).1 (by decide)
      rw [this]; decide⟩,
   ⟨by decide, by decide,
    (buildNotifyRequest_forward_header_semantics fwA fwReq [1]
      "X-Test-Forward-C" (by decide)).2.1 (by decide) (by decide)⟩⟩

/-- Claim C6: for every request whose marker header value is non-empty
but not valid base64, a decode error is logged, no notification POST is
attempted, and the client response is still delivered unmodified apart
from removal of the marker header. -/
theorem ServeHTTP_invalid_base64_contained
    (a : notify) (req : Request) (rw : Recorder) (as : List HAction)
    (env : NotifyEnv)
    (hval : hGet (runHandler as (newResponseWriter rw)).w.header
      a.notifyHeader ≠ "")
    (hdec : base64DecodeString
      (hGet (runHandler as (newResponseWriter rw)).w.header a.notifyHeader) =
        none) :
    (notify.ServeHTTP a req rw (HandlerRun.normal as) env).log =
      [LogEvent.decodeError] ∧
    (notify.ServeHTTP a req rw (HandlerRun.normal as) env).notifyReq = none ∧
    (notify.ServeHTTP a req rw (HandlerRun.normal as) env).sink.header =
      hDel (runHandler as (newResponseWriter rw)).w.header a.notifyHeader ∧
    (notify.ServeHTTP a req rw (HandlerRun.normal as) env).sink.codes =
      rw.codes ++ [(runHandler as (newResponseWriter rw)).code] ∧
    (notify.ServeHTTP a req rw (HandlerRun.normal as) env).sink.body =
      rw.body ++ (runHandler as (newResponseWriter rw)).buf := by
  obtain ⟨h1, h2, h3⟩ := ServeHTTP_sink_components a req rw as env
  refine ⟨?_, ?_, h1, h2, h3⟩
  · rw [ServeHTTP_log_normal]
    simp [notifyStep, if_neg hval, hdec]
  · rw [ServeHTTP_notifyReq_normal]
    simp [notifyStep, if_neg hval, hdec]

/-- The invalid-base64 handler trace from the repository's tests. -/
def c6Acts : List HAction :=
  [HAction.setHeader "X-Notify" "invalid-base64-value",
   HAction.writeHeader 200, HAction.write [104, 105]]

/-- Witness for C6 at the test's concrete input
(`"invalid-base64-value"`). -/
theorem ServeHTTP_invalid_base64_contained_witness :
    hGet (runHandler c6Acts (newResponseWriter exRW)).w.header exA.notifyHeader
      ≠ "" ∧
    base64DecodeString
      (hGet (runHandler c6Acts (newResponseWriter exRW)).w.header
        exA.notifyHeader) = none ∧
    (notify.ServeHTTP exA exReq exRW (HandlerRun.normal c6Acts) exEnv).log =
      [LogEvent.decodeError] ∧
    (notify.ServeHTTP exA exReq exRW (HandlerRun.normal c6Acts) exEnv).notifyReq
      = none :=
  ⟨by decide, by decide,
   (ServeHTTP_invalid_base64_contained exA exReq exRW c6Acts exEnv (by decide)
     (by decide)).1,
   (ServeHTTP_invalid_base64_contained exA exReq exRW c6Acts exEnv (by decide)
     (by decide)).2.1⟩

/-- Claim C7: after the notification POST returns a response, a success
message is logged if and only if the response status code equals 202
exactly; for any other status code the response body is read and a
failure message containing the body content is logged, except that a
body-read error is itself logged and aborts only that logging step. -/
theorem ServeHTTP_notification_status_logging
    (a : notify) (req : Request) (rw : Recorder) (as : List HAction)
    (env : NotifyEnv) (status : Nat) (r : ReadResult) (data : List Nat)
    (hval : hGet (runHandler as (newResponseWriter rw)).w.header
      a.notifyHeader ≠ "")
    (hdec : base64DecodeString
      (hGet (runHandler as (newResponseWriter rw)).w.header a.notifyHeader) =
        some data)
    (hbuild : env.buildOk = true)
    (hpost : env.post = PostOutcome.resp status r) :
    ((notify.ServeHTTP a req rw (HandlerRun.normal as) env).log =
      if status = 202 then [LogEvent.notifySuccess]
      else
        match r with
        | ReadResult.ok b => [LogEvent.notifyFailed b]
        | ReadResult.err => [LogEvent.readBodyError]) ∧
    (LogEvent.notifySuccess ∈
        (notify.ServeHTTP a req rw (HandlerRun.normal as) env).log ↔
      status = 202) := by
  have hlog := ServeHTTP_log_normal a req rw as env
  by_cases hs : status = 202
  · have hl : (notify.ServeHTTP a req rw (HandlerRun.normal as) env).log =
        [LogEvent.notifySuccess] := by
      rw [hlog]
      simp [notifyStep, if_neg hval, hdec, hbuild, hpost, hs]
    rw [hl, if_pos hs]
    exact ⟨rfl, by simp [hs]⟩
  · cases r with
    | ok b =>
      have hl : (notify.ServeHTTP a req rw (HandlerRun.normal as) env).log =
          [LogEvent.notifyFailed b] := by
        rw [hlog]
        simp [notifyStep, if_neg hval, hdec, hbuild, hpost, hs]
      rw [hl, if_neg hs]
      exact ⟨rfl, by simp [hs]⟩
    | err =>
      have hl : (notify.ServeHTTP a req rw (HandlerRun.normal as) env).log =
          [LogEvent.readBodyError] := by
        rw [hlog]
        simp [notifyStep, if_neg hval, hdec, hbuild, hpost, hs]
      rw [hl, if_neg hs]
      exact ⟨rfl, by simp [hs]⟩

/-- The environment of the failed-POST test: status 400, body
`"invalid notify url"`. -/
def c7Env : NotifyEnv :=
  { buildOk := true,
    post := PostOutcome.resp 400 (ReadResult.ok "invalid notify url") }

/-- Witness for C7 at concrete inputs: a 400 response logs the failure
message with the body content, and no success message; a 202 response
logs the success message. -/
theorem ServeHTTP_notification_status_logging_witness :
    (notify.ServeHTTP exA exReq exRW (HandlerRun.normal exActs) c7Env).log =
      [LogEvent.notifyFailed "invalid notify url"] ∧
    (notify.ServeHTTP exA exReq exRW (HandlerRun.normal exActs)
      { buildOk := true, post := PostOutcome.resp 202 ReadResult.err }).log =
      [LogEvent.notifySuccess] :=
  ⟨((ServeHTTP_notification_status_logging exA exReq exRW exActs c7Env 400
      (ReadResult.ok "invalid notify url")
      [104, 101, 108, 108, 111, 32, 119, 111, 114, 108, 100]
      (by decide) (by decide) rfl rfl).1).trans (by decide),
   ((ServeHTTP_notification_status_logging exA exReq exRW exActs
      { buildOk := true, post := PostOutcome.resp 202 ReadResult.err } 202
      ReadResult.err
      [104, 101, 108, 108, 111, 32, 119, 111, 114, 108, 100]
      (by decide) (by decide) rfl rfl).1).trans (by decide)⟩

/-- Claim C8: the buffer's `Flush` is invoked exactly once per request on
every exit path of `ServeHTTP` — normal return from any branch as well as
a panic raised by the downstream handler during its write phase, thanks
to the deferred cleanup — so the real sink receives exactly one status
write and the client always gets a well-formed response. -/
theorem ServeHTTP_flushes_exactly_once
    (a : notify) (req : Request) (rw : Recorder) (run : HandlerRun)
    (env : NotifyEnv) :
    (notify.ServeHTTP a req rw run env).sink.flushes = rw.flushes + 1 ∧
    (notify.ServeHTTP a req rw run env).sink.codes.length =
      rw.codes.length + 1 := by
  cases run with
  | normal as =>
    rw [ServeHTTP_sink_normal]
    constructor
    · rw [finishResponse_flushes, runHandler_w_flushes]
      rfl
    · rw [finishResponse_codes, runHandler_w_codes]
      simp [newResponseWriter]
  | panics as =>
    rw [ServeHTTP_sink_panics]
    constructor
    · rw [finishResponse_flushes, runHandler_w_flushes]
      rfl
    · rw [finishResponse_codes, runHandler_w_codes]
      simp [newResponseWriter]

/-- Claim C9: if the downstream handler never calls `WriteHeader` on the
response buffer, the status code delivered to the client at flush time is
200. -/
theorem ServeHTTP_default_status_200
    (a : notify) (req : Request) (rw : Recorder) (as : List HAction)
    (env : NotifyEnv) (h : ∀ x ∈ as, x.isWriteHeader = false) :
    (notify.ServeHTTP a req rw (HandlerRun.normal as) env).sink.codes =
      rw.codes ++ [200] := by
  obtain ⟨-, h2, -⟩ := ServeHTTP_sink_components a req rw as env
  rw [h2, runHandler_code_of_no_writeHeader as _ h]
  rfl

/-- A handler trace that writes a body but never calls `WriteHeader`. -/
def c9Acts : List HAction :=
  [HAction.setHeader "Content-Type" "text/plain", HAction.write [104, 105]]

/-- Witness for C9 at a concrete input. -/
theorem ServeHTTP_default_status_200_witness :
    (∀ x ∈ c9Acts, x.isWriteHeader = false) ∧
    (notify.ServeHTTP exA exReq exRW (HandlerRun.normal c9Acts) exEnv).sink.codes
      = exRW.codes ++ [200] :=
  ⟨by decide,
   ServeHTTP_default_status_200 exA exReq exRW c9Acts exEnv (by decide)⟩

/-- Claim C10: if building the notification request itself fails
(`http.NewRequest` returns an error, before any transport attempt), the
error is logged, no notification POST is attempted, and the buffered
response is still delivered to the client unchanged apart from marker
removal — contained exactly like a transport error. -/
theorem ServeHTTP_build_request_error_contained
    (a : notify) (req : Request) (rw : Recorder) (as : List HAction)
    (env : NotifyEnv) (data : List Nat)
    (hval : hGet (runHandler as (newResponseWriter rw)).w.header
      a.notifyHeader ≠ "")
    (hdec : base64DecodeString
      (hGet (runHandler as (newResponseWriter rw)).w.header a.notifyHeader) =
        some data)
    (hbuild : env.buildOk = false) :
    (notify.ServeHTTP a req rw (HandlerRun.normal as) env).log =
      [LogEvent.createRequestError] ∧
    (notify.ServeHTTP a req rw (HandlerRun.normal as) env).notifyReq = none ∧
    (notify.ServeHTTP a req rw (HandlerRun.normal as) env).sink.header =
      hDel (runHandler as (newResponseWriter rw)).w.header a.notifyHeader ∧
    (notify.ServeHTTP a req rw (HandlerRun.normal as) env).sink.codes =
      rw.codes ++ [(runHandler as (newResponseWriter rw)).code] ∧
    (notify.ServeHTTP a req rw (HandlerRun.normal as) env).sink.body =
      rw.body ++ (runHandler as (newResponseWriter rw)).buf := by
  obtain ⟨h1, h2, h3⟩ := ServeHTTP_sink_components a req rw as env
  refine ⟨?_, ?_, h1, h2, h3⟩
  · rw [ServeHTTP_log_normal]
    simp [notifyStep, if_neg hval, hdec, hbuild]
  · rw [ServeHTTP_notifyReq_normal]
    simp [notifyStep, if_neg hval, hdec, hbuild]

/-- An environment where `http.NewRequest` fails. -/
def c10Env : NotifyEnv := { buildOk := false, post := PostOutcome.transportErr }

/-- Witness for C10 at a concrete input: valid base64 marker, request
construction fails. -/
theorem ServeHTTP_build_request_error_contained_witness :
    hGet (runHandler exActs (newResponseWriter exRW)).w.header exA.notifyHeader
      ≠ "" ∧
    (notify.ServeHTTP exA exReq exRW (HandlerRun.normal exActs) c10Env).log =
      [LogEvent.createRequestError] ∧
    (notify.ServeHTTP exA exReq exRW (HandlerRun.normal exActs) c10Env).notifyReq
      = none :=
  ⟨by decide,
   (ServeHTTP_build_request_error_contained exA exReq exRW exActs c10Env
     [104, 101, 108, 108, 111, 32, 119, 111, 114, 108, 100]
     (by decide) (by decide) rfl).1,
   (ServeHTTP_build_request_error_contained exA exReq exRW exActs c10Env
     [104, 101, 108, 108, 111, 32, 119, 111, 114, 108, 100]
     (by decide) (by decide) rfl).2.1⟩

end Header2post
